import Mathlib

/-!
MicroWin backend: a shallow embedding of the step-generation pipeline.

This file embeds, in Lean 4, the parts of the MicroWin backend
(`backend/config.py`, `backend/services/microwin_service.py`,
`backend/database.py`, `backend/app.py`) that the verified properties
talk about, and proves or refutes those properties.

Modelling conventions:
* A JSON payload returned by the generation backend is modelled after
  `json.loads` has run: either `LlmResponse.invalid` (a parse failure) or
  `LlmResponse.object` with each of the three recognised fields either
  present (`some`) or absent (`none`).  `estimated_seconds` is a rational
  number, since Python places no integrality constraint on JSON numbers.
* The HTTP interaction of `_call_llm` is abstracted as a `BackendOutcome`
  oracle: success carrying the parsed payload, or one of the failure
  shapes (transport error, non-success status, timeout); the body of
  `_call_llm` maps every failure uniformly to a `ValueError`-style
  `generationBackendError`, exactly as the `except Exception` block does.
* The SQLite `steps` table is a `List StepRow`; UUID primary keys become
  `Nat`, and timestamp columns (`created_at`, `completed_at`) are dropped
  because no verified property reads them.
* Python exceptions become `Except` values; the distinct `raise`
  messages of `_validate_step` become distinct constructors of
  `MicroWinError`, each carrying the data interpolated into the message.
-/

namespace MicroWin

/-! ## config.py -/

/-- The fields of `Settings` (config.py) that the pipeline reads.
Defaults are the literals from `config.py`; string-valued backend
options (URL, model name) and the sampling options do not influence any
verified property and are omitted. -/
structure Settings where
  max_response_time_seconds : Int
  max_step_seconds : Int
  simplification_max_seconds : Int
deriving Repr, DecidableEq

/-- Global settings instance with the defaults from `config.py`. -/
def settings : Settings :=
  { max_response_time_seconds := 10
  , max_step_seconds := 10
  , simplification_max_seconds := 5 }

/-! ## Strings: Python `in` and `startswith` -/

/-- Python's `str.lower`, character by character (ASCII-faithful for
every string the pipeline hardcodes). -/
def strLower (s : String) : String := ⟨s.data.map Char.toLower⟩

/-- Python's `str.startswith`. -/
def strStartsWith (s pre : String) : Bool := pre.data.isPrefixOf s.data

/-- Python's `needle in hay` substring test: some tail of `hay` starts
with `needle`. -/
def strContainsSub (hay needle : String) : Bool :=
  hay.data.tails.any (fun t => needle.data.isPrefixOf t)

/-! ## services/microwin_service.py: the validator -/

/-- The result of `json.loads` on the backend's response text: a parse
failure, or a JSON object with the three fields `_validate_step` looks
at, each possibly absent. -/
inductive LlmResponse where
  | invalid (raw : String)
  | object (step : Option String) (estimated_seconds : Option ℚ)
      (is_complete : Option Bool)
deriving Repr, DecidableEq

/-- The normalized record `_validate_step` returns on success. -/
structure ValidatedStep where
  step : String
  estimated_seconds : ℚ
  is_complete : Bool
deriving Repr, DecidableEq

/-- The distinct `ValueError`s raised in `microwin_service.py`, one
constructor per raise site, carrying the data interpolated into the
message. -/
inductive MicroWinError where
  | invalidJson
  | missingField
  | timeBudgetExceeded (max_time : ℚ)
  | abstractVerbRejected (verb : String)
  | generationBackendError (cause : String)
deriving Repr, DecidableEq

/-- The hardcoded abstract-verb denylist of `_validate_step`. -/
def abstract_verbs : List String :=
  ["organize", "plan", "prepare", "think", "decide",
   "consider", "figure out", "work on", "deal with"]

/-- The hardcoded concrete-verb allowlist of `_validate_step`. -/
def concrete_verbs : List String :=
  ["pick", "grab", "open", "close", "walk", "tap", "touch",
   "click", "press", "pull", "push", "take", "put", "place",
   "move", "stand", "sit", "turn", "look", "find"]

/-- The active time ceiling chosen by `_validate_step`:
`settings.simplification_max_seconds` when `enforce_shorter`, else
`settings.max_step_seconds`. -/
def max_time (enforce_shorter : Bool) : ℚ :=
  if enforce_shorter then (settings.simplification_max_seconds : ℚ)
  else (settings.max_step_seconds : ℚ)

/-- Model of `MicroWinService._validate_step`.  Mirrors the source order of
checks: JSON parse, required fields, time budget against the active
ceiling, abstract-verb denylist (first match in list order raises), and
the advisory concrete-verb computation whose result is discarded
(`pass`). -/
def validate_step (llm_response : LlmResponse) (enforce_shorter : Bool := false) :
    Except MicroWinError ValidatedStep :=
  match llm_response with
  | .invalid _ => .error .invalidJson
  | .object step? estimated_seconds? is_complete? =>
    match step?, estimated_seconds? with
    | some step_text, some estimated_seconds =>
      let mt := max_time enforce_shorter
      if estimated_seconds > mt then
        .error (.timeBudgetExceeded mt)
      else
        let step_lower := strLower step_text
        match abstract_verbs.find? (fun verb => strContainsSub step_lower verb) with
        | some verb => .error (.abstractVerbRejected verb)
        | none =>
          -- advisory allowlist check; the source computes it and does
          -- nothing with the result ("Be lenient for hackathon")
          let _has_concrete_verb :=
            concrete_verbs.any (fun verb => strStartsWith step_lower verb)
          .ok { step := step_text
              , estimated_seconds := estimated_seconds
              , is_complete := is_complete?.getD false }
    | _, _ => .error .missingField

/-! ## prompts.py: the prompt builders

Pure, total string builders.  The literal prompt text is reproduced in
structure (which inputs are embedded where, the energy-level table with
its fallback); the long instructional passages are abbreviated, since no
verified property reads the prompt text — `validate_step` and the rest
of the pipeline never inspect it. -/

/-- Python's `str.upper`, character by character. -/
def strUpper (s : String) : String := ⟨s.data.map Char.toUpper⟩

/-- The fixed persona/system instruction prepended to every call. -/
def SYSTEM_PROMPT : String :=
  "You are a supportive, non-judgmental Therapist and Cognitive Assistant. " ++
  "Respond ONLY with valid JSON: \x7b\"step\": \"action description\", " ++
  "\"estimated_seconds\": number, \"is_complete\": boolean\x7d"

/-- Model of `sanitize_goal_for_llm` (prompts.py): the privacy hook, currently
whitespace-trim only. -/
def sanitize_goal_for_llm (goal : String) : String := goal.trim

/-- The energy-context table of `get_initial_step_prompt`, with the
dictionary-lookup fallback for unrecognised levels. -/
def initial_energy_context (energy_level : String) : String :=
  if energy_level = "low" then
    "The user has LOW energy. Generate a tiny micro-micro step (≤3s). Very non-intimidating."
  else if energy_level = "medium" then
    "Standard energy level. Generate a concrete physical action (≤7s)."
  else if energy_level = "high" then
    "High energy level. Standard micro-win pace (≤10s)."
  else
    "Standard micro-win pace (≤7s)."

/-- Model of `get_initial_step_prompt` (prompts.py). -/
def get_initial_step_prompt (goal : String) (energy_level : String) : String :=
  "TASK: " ++ goal ++
  "\nENERGY LEVEL: " ++ strUpper energy_level ++
  "\nCONSTRAINT: " ++ initial_energy_context energy_level ++
  "\n\nGenerate the FIRST physically executable micro-step to start this task."

/-- The energy-context table of `get_next_step_prompt`. -/
def next_energy_context (energy_level : String) : String :=
  if energy_level = "low" then
    "Keep steps ultra-tiny and non-intimidating (≤3s)."
  else if energy_level = "medium" then
    "Standard micro-win pace (≤7s)."
  else if energy_level = "high" then
    "Standard micro-win pace (≤10s)."
  else
    "Standard micro-win pace (≤7s)."

/-- Model of `get_next_step_prompt` (prompts.py). -/
def get_next_step_prompt (goal : String) (previous_step : String)
    (energy_level : String) : String :=
  "ORIGINAL TASK: " ++ goal ++
  "\nPREVIOUS STEP COMPLETED: " ++ previous_step ++
  "\nENERGY LEVEL: " ++ strUpper energy_level ++
  "\nCONSTRAINT: " ++ next_energy_context energy_level ++
  "\n\nGenerate the NEXT physically executable micro-step. " ++
  "If the goal is finished, return is_complete: true."

/-- Model of `get_simplification_prompt` (prompts.py). -/
def get_simplification_prompt (current_step : String)
    (simplification_level : Int) : String :=
  "The user found this step TOO HARD:\n\"" ++ current_step ++
  "\"\n\nThis is simplification level " ++ toString (simplification_level + 1) ++
  ".\n\nBreak it into an EVEN SIMPLER physical action. Target ≤5 seconds."

/-! ## services/microwin_service.py: the generation client and
orchestrator

`_call_llm` performs one HTTP POST to the completion backend.  The
network interaction is abstracted as a `BackendOutcome` oracle; the
`except Exception` block of `_call_llm` is the uniform translation of
every failure shape into one `ValueError` whose message embeds the
stringified cause. -/

/-- What the single backend HTTP call did: returned a body whose
`response` field parses to `payload`, or failed in one of the ways the
`except Exception` block can see. -/
inductive BackendOutcome where
  | success (payload : LlmResponse)
  | transportError (message : String)
  | httpStatusError (status : Nat)
  | timeoutError
deriving Repr, DecidableEq

/-- Python's `str(e)` for each failure shape. -/
def BackendOutcome.describe : BackendOutcome → String
  | .success _ => ""
  | .transportError message => message
  | .httpStatusError status => "HTTP status error " ++ toString status
  | .timeoutError => "timed out"

namespace MicroWinService

/-- Model of `MicroWinService._call_llm`: on success, the parsed `response`
field; on any failure, uniformly
`ValueError("Ollama API error: " + str(e))`.  The prompt argument does
not influence the outcome mapping. -/
def call_llm (_user_prompt : String) (outcome : BackendOutcome) :
    Except MicroWinError LlmResponse :=
  match outcome with
  | .success payload => .ok payload
  | o => .error (.generationBackendError ("Ollama API error: " ++ o.describe))

/-- Model of `MicroWinService.generate_initial_step`: sanitize, build the initial
prompt, call the backend, validate with the normal ceiling. -/
def generate_initial_step (goal : String) (energy_level : String)
    (outcome : BackendOutcome) : Except MicroWinError ValidatedStep := do
  let sanitized_goal := sanitize_goal_for_llm goal
  let user_prompt := get_initial_step_prompt sanitized_goal energy_level
  let response ← call_llm user_prompt outcome
  validate_step response

/-- Model of `MicroWinService.generate_next_step`: sanitize, build the
continuation prompt, call the backend, validate with the normal
ceiling. -/
def generate_next_step (goal : String) (previous_step : String)
    (energy_level : String) (outcome : BackendOutcome) :
    Except MicroWinError ValidatedStep := do
  let sanitized_goal := sanitize_goal_for_llm goal
  let user_prompt := get_next_step_prompt sanitized_goal previous_step energy_level
  let response ← call_llm user_prompt outcome
  validate_step response

/-- Model of `MicroWinService.simplify_step`: build the simplification prompt,
call the backend, validate with `enforce_shorter := true`. -/
def simplify_step (current_step : String) (simplification_level : Int)
    (outcome : BackendOutcome) : Except MicroWinError ValidatedStep := do
  let user_prompt := get_simplification_prompt current_step simplification_level
  let response ← call_llm user_prompt outcome
  validate_step response true

end MicroWinService

/-! ## database.py: the steps table

One row of the SQLite `steps` table.  UUIDs are abstracted to `Nat`;
the timestamp columns are dropped (no verified property reads them).
The `estimated_seconds` column is nullable in the schema, and SQLite's
dynamic typing stores whatever number the caller hands it. -/

structure StepRow where
  id : Nat
  task_id : Nat
  step_text : String
  estimated_seconds : Option ℚ
  actual_duration_seconds : Option Int
  step_order : Int
  simplification_level : Int
  completed : Bool
deriving Repr, DecidableEq

namespace Database

/-- Model of `Database.create_step`: INSERT a fresh row.  The omitted columns
take their schema defaults: `actual_duration_seconds` NULL,
`completed` FALSE. -/
def create_step (steps : List StepRow) (step_id : Nat) (task_id : Nat)
    (step_text : String) (estimated_seconds : ℚ) (step_order : Int)
    (simplification_level : Int) : List StepRow :=
  steps ++
    [{ id := step_id
     , task_id := task_id
     , step_text := step_text
     , estimated_seconds := some estimated_seconds
     , actual_duration_seconds := none
     , step_order := step_order
     , simplification_level := simplification_level
     , completed := false }]

/-- Model of `Database.mark_step_completed`: UPDATE the row(s) whose `id`
matches, setting `completed = TRUE` and `actual_duration_seconds` to
the given duration (the Python default is `None`, i.e. NULL). -/
def mark_step_completed (steps : List StepRow) (step_id : Nat)
    (duration : Option Int := none) : List StepRow :=
  steps.map fun r =>
    if r.id = step_id then
      { r with completed := true, actual_duration_seconds := duration }
    else r

/-- The row `ORDER BY step_order DESC LIMIT 1` returns from a bag of
candidate rows: a row of maximal `step_order` (ties keep the earlier
row; SQLite leaves the tie order unspecified). -/
def pickLatest : List StepRow → Option StepRow → Option StepRow
  | [], best => best
  | r :: rs, none => pickLatest rs (some r)
  | r :: rs, some best =>
      pickLatest rs (some (if best.step_order < r.step_order then r else best))

/-- Model of `Database.get_current_step`:
`SELECT * FROM steps WHERE task_id = ? AND completed = FALSE
ORDER BY step_order DESC LIMIT 1`. -/
def get_current_step (steps : List StepRow) (task_id : Nat) : Option StepRow :=
  pickLatest (steps.filter fun r => r.task_id == task_id && !r.completed) none

/-- Model of `SELECT MAX(step_order) FROM steps WHERE task_id = ?`: NULL on an
empty selection. -/
def maxStepOrder : List StepRow → Option Int
  | [] => none
  | r :: rs =>
    match maxStepOrder rs with
    | none => some r.step_order
    | some m => some (max r.step_order m)

/-- Python's `result[0] or -1` where `result[0]` is the MAX above:
`or` yields `-1` both when the MAX is NULL (`None`) and when it is the
integer `0`, since both are falsy in Python. -/
def pyOrMinusOne : Option Int → Int
  | none => -1
  | some v => if v = 0 then -1 else v

/-- Model of `Database.get_next_step_order`: `(result[0] or -1) + 1`. -/
def get_next_step_order (steps : List StepRow) (task_id : Nat) : Int :=
  pyOrMinusOne (maxStepOrder (steps.filter fun r => r.task_id == task_id)) + 1

end Database

/-! ## app.py: the simplify endpoint

`POST /api/task/simplify`: resolve the current step (404 when none),
run the service's simplify operation (500 on any error), then persist:
create the replacement row at the *same* `step_order` with
`simplification_level + 1`, and mark the old row completed with no
duration.  The fresh UUID chosen by `create_step` is passed in as
`new_step_id`. -/

/-- The `MicroWinResponse` body (models.py) as built by the simplify
endpoint; `next_preview` is always absent there and is omitted. -/
structure MicroWinResponse where
  task_id : Nat
  step_id : Nat
  step_text : String
  estimated_seconds : ℚ
  simplification_level : Int
  step_order : Int
  is_complete : Bool
deriving Repr, DecidableEq

/-- The three ways the endpoint can answer. -/
inductive SimplifyResult where
  | notFound                                  -- HTTP 404
  | serviceError (e : MicroWinError)          -- HTTP 500
  | ok (steps : List StepRow) (response : MicroWinResponse)
deriving Repr, DecidableEq

/-- Model of the `simplify_step` endpoint (app.py). -/
def simplify_endpoint (steps : List StepRow) (task_id : Nat)
    (new_step_id : Nat) (outcome : BackendOutcome) : SimplifyResult :=
  match Database.get_current_step steps task_id with
  | none => .notFound
  | some current_step =>
    match MicroWinService.simplify_step current_step.step_text
        current_step.simplification_level outcome with
    | .error e => .serviceError e
    | .ok step_data =>
      let steps1 := Database.create_step steps new_step_id task_id
        step_data.step step_data.estimated_seconds
        current_step.step_order (current_step.simplification_level + 1)
      let steps2 := Database.mark_step_completed steps1 current_step.id none
      .ok steps2
        { task_id := task_id
        , step_id := new_step_id
        , step_text := step_data.step
        , estimated_seconds := step_data.estimated_seconds
        , simplification_level := current_step.simplification_level + 1
        , step_order := current_step.step_order
        , is_complete := step_data.is_complete }

/-! ## Concrete step tables used to instantiate the general theorems -/

/-- The state after `/api/task/start`: one uncompleted step at
`step_order = 0`. -/
def c2Row : StepRow :=
  { id := 1, task_id := 7, step_text := "touch the pen"
  , estimated_seconds := some 3, actual_duration_seconds := none
  , step_order := 0, simplification_level := 0, completed := false }

/-- A variant of `c2Row` whose `step_order` is 1. -/
def c2RowOrderOne : StepRow := { c2Row with id := 2, step_order := 1 }

/-- Task 7, step 0: completed. -/
def c7r1 : StepRow :=
  { id := 1, task_id := 7, step_text := "touch the pen"
  , estimated_seconds := some 3, actual_duration_seconds := some 4
  , step_order := 0, simplification_level := 0, completed := true }

/-- Task 7, an extra uncompleted step at order 0. -/
def c7r5 : StepRow :=
  { id := 5, task_id := 7, step_text := "grab the sponge"
  , estimated_seconds := some 4, actual_duration_seconds := none
  , step_order := 0, simplification_level := 1, completed := false }

/-- Task 7, step 1: uncompleted — the expected current step. -/
def c7r2 : StepRow :=
  { id := 2, task_id := 7, step_text := "open the tap"
  , estimated_seconds := some 5, actual_duration_seconds := none
  , step_order := 1, simplification_level := 0, completed := false }

/-- Task 8, an uncompleted step of another task. -/
def c7r4 : StepRow :=
  { id := 4, task_id := 8, step_text := "pick up one sock"
  , estimated_seconds := some 3, actual_duration_seconds := none
  , step_order := 5, simplification_level := 0, completed := false }

/-- A table holding steps of two tasks. -/
def c7Rows : List StepRow := [c7r1, c7r5, c7r2, c7r4]

/-- The step the simplify-endpoint example starts from. -/
def c8Row : StepRow :=
  { id := 1, task_id := 7, step_text := "pick up the pen"
  , estimated_seconds := some 8, actual_duration_seconds := none
  , step_order := 0, simplification_level := 0, completed := false }

/-- The table the simplify-endpoint example starts from. -/
def c8Steps : List StepRow := [c8Row]

end MicroWin

open MicroWin

/-! ## Helper lemmas about the validator -/

/-- The active ceiling is 5 in `enforce_shorter` mode and 10 otherwise
(the `config.py` defaults). -/
theorem max_time_eq (enforce_shorter : Bool) :
    max_time enforce_shorter = if enforce_shorter then 5 else 10 := by
  cases enforce_shorter <;> rfl

/-- Success shape of `validate_step`: within the ceiling and with no
denylist match, the normalized record is returned. -/
theorem validate_step_ok (step_text : String) (est : ℚ) (ic : Option Bool)
    (es : Bool) (htime : ¬ est > max_time es)
    (hverb : abstract_verbs.find? (fun v => strContainsSub (strLower step_text) v) = none) :
    validate_step (.object (some step_text) (some est) ic) es =
      .ok { step := step_text, estimated_seconds := est, is_complete := ic.getD false } := by
  simp [validate_step, htime, hverb]

/-- Inversion: any success of `validate_step` on a field-complete
candidate is exactly the normalized record. -/
theorem validate_step_ok_inv (step_text : String) (est : ℚ) (ic : Option Bool)
    (es : Bool) (v : ValidatedStep)
    (h : validate_step (.object (some step_text) (some est) ic) es = .ok v) :
    v = { step := step_text, estimated_seconds := est, is_complete := ic.getD false } := by
  by_cases ht : est > max_time es
  · simp [validate_step, ht] at h
  · rcases hf : abstract_verbs.find? (fun verb => strContainsSub (strLower step_text) verb) with _ | verb
    · simp [validate_step, ht, hf] at h
      exact h.symm
    · simp [validate_step, ht, hf] at h

/-! ## Claims about the validator -/

/-- C3: every candidate whose `estimated_seconds` exceeds the
active ceiling fails with `TimeBudgetExceeded` carrying exactly the
ceiling in force: 10 (`max_step_seconds`) in normal mode, 5
(`simplification_max_seconds`) under `enforce_shorter`. -/
theorem C3_time_budget_exceeded (step_text : String) (est : ℚ) (ic : Option Bool)
    (enforce_shorter : Bool) (h : est > max_time enforce_shorter) :
    validate_step (.object (some step_text) (some est) ic) enforce_shorter =
      .error (.timeBudgetExceeded (if enforce_shorter then 5 else 10)) := by
  rw [← max_time_eq]
  simp [validate_step, h]

/-- Witness for C3: `"touch the pen"` at 12 seconds in normal mode is
rejected with the ceiling 10 (spec Scenario C). -/
theorem C3_witness :
    validate_step (.object (some "touch the pen") (some 12) none) false =
      .error (.timeBudgetExceeded 10) := by
  have h := C3_time_budget_exceeded "touch the pen" 12 none false
    (by rw [max_time_eq]; norm_num)
  simpa using h

/-- C4: a candidate that parses, has both fields, and meets the
ceiling fails with `AbstractVerbRejected` carrying a matched denylist
term whenever its lowercased text contains one as a substring; and the
time-budget rule fires first, so a candidate violating both rules fails
with `TimeBudgetExceeded`. -/
theorem C4_abstract_verb_denylist (step_text : String) (est : ℚ) (ic : Option Bool)
    (es : Bool)
    (hverb : ∃ v ∈ abstract_verbs, strContainsSub (strLower step_text) v = true) :
    (¬ est > max_time es →
      ∃ v ∈ abstract_verbs, strContainsSub (strLower step_text) v = true ∧
        validate_step (.object (some step_text) (some est) ic) es =
          .error (.abstractVerbRejected v)) ∧
    (est > max_time es →
      validate_step (.object (some step_text) (some est) ic) es =
        .error (.timeBudgetExceeded (max_time es))) := by
  constructor
  · intro htime
    rcases hf : abstract_verbs.find? (fun v => strContainsSub (strLower step_text) v)
      with _ | v
    · exfalso
      obtain ⟨v, hv, hcontains⟩ := hverb
      have := List.find?_eq_none.mp hf v hv
      simp [hcontains] at this
    · refine ⟨v, List.mem_of_find?_eq_some hf, List.find?_some hf, ?_⟩
      simp [validate_step, htime, hf]
  · intro htime
    simp [validate_step, htime]

/-- Witness for C4: `"organize your desk"` at 4 seconds is rejected
with the matched term `"organize"` (spec Scenario B), and the same text
at 12 seconds in normal mode fails on the time budget instead. -/
theorem C4_witness :
    (∃ v ∈ abstract_verbs, strContainsSub (strLower "organize your desk") v = true ∧
      validate_step (.object (some "organize your desk") (some 4) none) false =
        .error (.abstractVerbRejected v)) ∧
    validate_step (.object (some "organize your desk") (some 12) none) false =
      .error (.timeBudgetExceeded (max_time false)) := by
  have h := C4_abstract_verb_denylist "organize your desk" 4 none false
    ⟨"organize", by decide, by decide⟩
  have h' := C4_abstract_verb_denylist "organize your desk" 12 none false
    ⟨"organize", by decide, by decide⟩
  exact ⟨h.1 (by rw [max_time_eq]; norm_num),
         h'.2 (by rw [max_time_eq]; norm_num)⟩

/-- C5: a candidate that parses, has both fields, meets the active
ceiling and contains no denylisted substring is accepted, returning the
normalized record with text and seconds unchanged and `is_complete`
defaulting to false when absent; no hypothesis about the concrete-verb
allowlist is needed (that check is advisory and never an error). -/
theorem C5_valid_candidate_accepted (step_text : String) (est : ℚ) (ic : Option Bool)
    (es : Bool) (htime : est ≤ max_time es)
    (hverbs : ∀ v ∈ abstract_verbs, strContainsSub (strLower step_text) v = false) :
    validate_step (.object (some step_text) (some est) ic) es =
      .ok { step := step_text, estimated_seconds := est, is_complete := ic.getD false } := by
  refine validate_step_ok step_text est ic es (not_lt.mpr htime) ?_
  refine List.find?_eq_none.mpr ?_
  intro v hv
  simp [hverbs v hv]

/-- Witness for C5: `"smile at the mirror"` starts with no allowlisted
concrete verb, yet is accepted at 3 seconds with `is_complete`
defaulted to false. -/
theorem C5_witness :
    (concrete_verbs.any fun v => strStartsWith (strLower "smile at the mirror") v) = false ∧
    validate_step (.object (some "smile at the mirror") (some 3) none) false =
      .ok { step := "smile at the mirror", estimated_seconds := 3, is_complete := false } :=
  ⟨by decide,
   C5_valid_candidate_accepted "smile at the mirror" 3 none false
     (by rw [max_time_eq]; norm_num) (by decide)⟩

/-- C6 (amended): a candidate missing the `step` field or the
`estimated_seconds` field fails with `MissingField`; the validator does
*not* additionally require the step text to be non-empty (see the
counterexample). -/
theorem C6_amended_missing_field (step? : Option String) (est? : Option ℚ)
    (ic : Option Bool) (es : Bool) (h : step? = none ∨ est? = none) :
    validate_step (.object step? est? ic) es = .error .missingField := by
  cases step? with
  | none => cases est? <;> rfl
  | some s =>
    cases est? with
    | none => rfl
    | some e => rcases h with h | h <;> simp at h

/-- Counterexample for C6 as stated: a candidate whose `step` field is
present but the empty string is *accepted*, not rejected. -/
theorem C6_counterexample_empty_step_accepted :
    validate_step (.object (some "") (some 3) none) false =
      .ok { step := "", estimated_seconds := 3, is_complete := false } := by rfl

/-- Witness for C6 (amended): a candidate without a `step` field fails
with `MissingField`. -/
theorem C6_witness :
    validate_step (.object none (some 3) none) false = .error .missingField :=
  C6_amended_missing_field none (some 3) none false (Or.inl rfl)

/-- C10: the validator imposes no lower bound and no integrality
requirement on `estimated_seconds`: any rational value not exceeding
the active ceiling (including 0, negative, and fractional values) is
returned unchanged. -/
theorem C10_no_lower_bound (step_text : String) (est : ℚ) (ic : Option Bool)
    (es : Bool) (htime : est ≤ (if es then 5 else 10))
    (hverbs : ∀ v ∈ abstract_verbs, strContainsSub (strLower step_text) v = false) :
    validate_step (.object (some step_text) (some est) ic) es =
      .ok { step := step_text, estimated_seconds := est, is_complete := ic.getD false } := by
  refine validate_step_ok step_text est ic es ?_ ?_
  · rw [max_time_eq]
    exact not_lt.mpr htime
  · refine List.find?_eq_none.mpr ?_
    intro v hv
    simp [hverbs v hv]

/-- Witness for C10: the negative, non-integral value -7/2 passes
validation unchanged. -/
theorem C10_witness :
    validate_step (.object (some "touch the pen") (some (-(7/2) : ℚ)) (some false)) false =
      .ok { step := "touch the pen", estimated_seconds := -(7/2), is_complete := false } :=
  C10_no_lower_bound "touch the pen" (-(7/2)) (some false) false (by norm_num) (by decide)

/-! ## Claims about the simplify operation of the service -/

/-- Counterexample for C1 as stated: a backend payload that sets
`is_complete` to true passes strict validation, and `simplify_step`
returns it with `is_complete = true` — nothing forces it false. -/
theorem C1_counterexample_is_complete_not_forced :
    MicroWinService.simplify_step "pick up the pen" 0
        (.success (.object (some "touch the pen") (some 3) (some true))) =
      .ok { step := "touch the pen", estimated_seconds := 3, is_complete := true } := by rfl

/-- C1 (amended): the validated step returned by `simplify_step`
carries the backend payload's `is_complete` value, defaulting to false
only when the field is absent; it is not forced to false. -/
theorem C1_amended_is_complete_passthrough (current_step : String)
    (simplification_level : Int) (step_text : String) (est : ℚ)
    (ic : Option Bool) (v : ValidatedStep)
    (h : MicroWinService.simplify_step current_step simplification_level
          (.success (.object (some step_text) (some est) ic)) = .ok v) :
    v.is_complete = ic.getD false := by
  have h' : validate_step (.object (some step_text) (some est) ic) true = .ok v := by
    simpa [MicroWinService.simplify_step, MicroWinService.call_llm] using h
  rw [validate_step_ok_inv step_text est ic true v h']

/-- Witness for C1 (amended): with the payload's `is_complete = true`,
the returned record's `is_complete` equals that payload value. -/
theorem C1_witness :
    ({ step := "touch the pen", estimated_seconds := 3, is_complete := true } :
        ValidatedStep).is_complete = (some true).getD false :=
  C1_amended_is_complete_passthrough "pick up the pen" 0 "touch the pen" 3
    (some true) _ (by rfl)

/-! ## Helper lemmas about the step store -/

/-- Lemma: `pickLatest` over a non-empty accumulator returns a row drawn from
the accumulator or the list, of maximal `step_order` among them. -/
theorem pickLatest_some_spec (rs : List StepRow) (b : StepRow) :
    ∃ c, Database.pickLatest rs (some b) = some c ∧ (c = b ∨ c ∈ rs) ∧
      b.step_order ≤ c.step_order ∧ ∀ t ∈ rs, t.step_order ≤ c.step_order := by
  induction rs generalizing b with
  | nil => exact ⟨b, rfl, Or.inl rfl, le_refl _, by simp⟩
  | cons r rs ih =>
    by_cases h : b.step_order < r.step_order
    · obtain ⟨c, hc, hmem, hle, hall⟩ := ih r
      refine ⟨c, ?_, ?_, ?_, ?_⟩
      · simpa [Database.pickLatest, h] using hc
      · rcases hmem with rfl | m
        · exact Or.inr (List.mem_cons_self _ _)
        · exact Or.inr (List.mem_cons_of_mem _ m)
      · exact (le_of_lt h).trans hle
      · intro t ht
        rcases List.mem_cons.mp ht with rfl | m
        · exact hle
        · exact hall t m
    · obtain ⟨c, hc, hmem, hle, hall⟩ := ih b
      refine ⟨c, ?_, ?_, hle, ?_⟩
      · simpa [Database.pickLatest, h] using hc
      · rcases hmem with rfl | m
        · exact Or.inl rfl
        · exact Or.inr (List.mem_cons_of_mem _ m)
      · intro t ht
        rcases List.mem_cons.mp ht with rfl | m
        · exact (not_lt.mp h).trans hle
        · exact hall t m

/-- Lemma: `pickLatest` starting from an empty accumulator returns nothing
exactly on the empty list. -/
theorem pickLatest_none_iff (rs : List StepRow) :
    Database.pickLatest rs none = none ↔ rs = [] := by
  cases rs with
  | nil => simp [Database.pickLatest]
  | cons r rs =>
    obtain ⟨c, hc, -, -, -⟩ := pickLatest_some_spec rs r
    simp [Database.pickLatest, hc]

/-- The current-step query comes back empty exactly when every step of
the task is completed. -/
theorem get_current_step_none_iff (steps : List StepRow) (tid : Nat) :
    Database.get_current_step steps tid = none ↔
      ∀ r ∈ steps, r.task_id = tid → r.completed = true := by
  rw [Database.get_current_step, pickLatest_none_iff, List.filter_eq_nil_iff]
  constructor
  · intro h r hr htid
    have h' := h r hr
    by_contra hcomp
    rw [Bool.not_eq_true] at hcomp
    exact h' (by simp [htid, hcomp])
  · intro h r hr hcontra
    rw [Bool.and_eq_true, beq_iff_eq, Bool.not_eq_true'] at hcontra
    exact absurd (h r hr hcontra.1) (by simp [hcontra.2])

/-- A row returned by the current-step query belongs to the task, is
uncompleted, and has maximal `step_order` among the task's uncompleted
rows. -/
theorem get_current_step_some_spec (steps : List StepRow) (tid : Nat) (s : StepRow)
    (h : Database.get_current_step steps tid = some s) :
    s ∈ steps ∧ s.task_id = tid ∧ s.completed = false ∧
      ∀ t ∈ steps, t.task_id = tid → t.completed = false →
        t.step_order ≤ s.step_order := by
  rw [Database.get_current_step] at h
  rcases hl : steps.filter (fun r => r.task_id == tid && !r.completed) with _ | ⟨r, rs⟩
  · rw [hl] at h
    simp [Database.pickLatest] at h
  · rw [hl] at h
    obtain ⟨c, hc, hmem, hle, hall⟩ := pickLatest_some_spec rs r
    have hpick : Database.pickLatest (r :: rs) none = some c := by
      simpa [Database.pickLatest] using hc
    rw [hpick] at h
    have hcs : c = s := Option.some.inj h
    subst hcs
    have hcl : c ∈ (r :: rs) := by
      rcases hmem with rfl | m
      · exact List.mem_cons_self _ _
      · exact List.mem_cons_of_mem _ m
    have hcf : c ∈ steps.filter (fun r => r.task_id == tid && !r.completed) := by
      rw [hl]; exact hcl
    have hcs' := List.mem_filter.mp hcf
    have hpred := hcs'.2
    rw [Bool.and_eq_true, beq_iff_eq, Bool.not_eq_true'] at hpred
    refine ⟨hcs'.1, hpred.1, hpred.2, ?_⟩
    intro t ht htid hcomp
    have htf : t ∈ steps.filter (fun r => r.task_id == tid && !r.completed) :=
      List.mem_filter.mpr ⟨ht, by simp [htid, hcomp]⟩
    rw [hl] at htf
    rcases List.mem_cons.mp htf with rfl | m
    · exact hle
    · exact hall t m

/-! ## Claims about the step store and the simplify endpoint -/

/-- C2 (code bug): `get_next_step_order` is `(MAX(step_order) or -1) + 1`
in Python, where `or` treats the integer 0 as falsy just like NULL.  On
the state every task is in right after its first step (a single step at
`step_order = 0`), the MAX is 0 yet the computed next order is 0 again
— not `max + 1 = 1`, so `step_order` is not strictly increasing there.
The no-steps case (0) and the nonzero-max case (`max + 1`) behave as
specified. -/
theorem C2_next_step_order_zero_bug :
    Database.maxStepOrder ([c2Row].filter fun r => r.task_id == 7) = some 0 ∧
    Database.get_next_step_order [c2Row] 7 = 0 ∧
    Database.get_next_step_order ([] : List StepRow) 7 = 0 ∧
    Database.get_next_step_order [c2RowOrderOne] 7 = 2 :=
  ⟨rfl, rfl, rfl, rfl⟩

/-- C7: for any table state (hence after any sequence of create and
complete operations), the current-step query returns none exactly when
every step of the task is completed, and otherwise returns an
uncompleted step of the task whose `step_order` is maximal among the
task's uncompleted steps. -/
theorem C7_current_step_query (steps : List StepRow) (tid : Nat) :
    (Database.get_current_step steps tid = none ↔
       ∀ r ∈ steps, r.task_id = tid → r.completed = true) ∧
    ∀ s, Database.get_current_step steps tid = some s →
      s ∈ steps ∧ s.task_id = tid ∧ s.completed = false ∧
        ∀ t ∈ steps, t.task_id = tid → t.completed = false →
          t.step_order ≤ s.step_order :=
  ⟨get_current_step_none_iff steps tid,
   fun s h => get_current_step_some_spec steps tid s h⟩

/-- Witness for C7: on a mixed table the query returns the uncompleted
task-7 row of maximal order, and every task-7 uncompleted row is
bounded by it. -/
theorem C7_witness :
    Database.get_current_step c7Rows 7 = some c7r2 ∧
    c7r2 ∈ c7Rows ∧ c7r2.task_id = 7 ∧ c7r2.completed = false ∧
    c7r5.step_order ≤ c7r2.step_order := by
  have h := (C7_current_step_query c7Rows 7).2 c7r2 (by rfl)
  exact ⟨by rfl, h.1, h.2.1, h.2.2.1,
         h.2.2.2 c7r5 (by decide) (by decide) (by decide)⟩

/-- C8: a successful simplify operation appends exactly one new row
for the same task with the *same* `step_order` and
`simplification_level + 1`, marks the old current row completed with no
recorded duration, and leaves every other row untouched — nothing is
deleted and no text is mutated in place. -/
theorem C8_simplify_creates_and_completes (steps : List StepRow) (tid : Nat)
    (new_step_id : Nat) (outcome : BackendOutcome) (cur : StepRow)
    (v : ValidatedStep)
    (hcur : Database.get_current_step steps tid = some cur)
    (hsvc : MicroWinService.simplify_step cur.step_text cur.simplification_level
        outcome = .ok v)
    (hfresh : ∀ r ∈ steps, r.id ≠ new_step_id) :
    let newRow : StepRow :=
      { id := new_step_id, task_id := tid, step_text := v.step
      , estimated_seconds := some v.estimated_seconds
      , actual_duration_seconds := none, step_order := cur.step_order
      , simplification_level := cur.simplification_level + 1
      , completed := false }
    let newSteps := Database.mark_step_completed steps cur.id none ++ [newRow]
    simplify_endpoint steps tid new_step_id outcome =
      .ok newSteps
        { task_id := tid, step_id := new_step_id, step_text := v.step
        , estimated_seconds := v.estimated_seconds
        , simplification_level := cur.simplification_level + 1
        , step_order := cur.step_order, is_complete := v.is_complete } ∧
    newSteps.length = steps.length + 1 ∧
    { cur with completed := true, actual_duration_seconds := none } ∈ newSteps ∧
    ∀ r ∈ steps, r.id ≠ cur.id → r ∈ newSteps := by
  intro newRow newSteps
  have hcurmem : cur ∈ steps := (get_current_step_some_spec steps tid cur hcur).1
  have hne : cur.id ≠ new_step_id := hfresh cur hcurmem
  have hmark : Database.mark_step_completed
      (Database.create_step steps new_step_id tid v.step v.estimated_seconds
        cur.step_order (cur.simplification_level + 1)) cur.id none = newSteps := by
    rw [Database.create_step, Database.mark_step_completed, List.map_append]
    show _ ++ [if newRow.id = cur.id then _ else newRow] = newSteps
    rw [if_neg fun e => hne e.symm]
    rfl
  refine ⟨?_, ?_, ?_, ?_⟩
  · simp only [simplify_endpoint, hcur, hsvc, hmark]
  · simp [newSteps, Database.mark_step_completed]
  · have : ({ cur with completed := true, actual_duration_seconds := none } :
        StepRow) ∈ Database.mark_step_completed steps cur.id none := by
      rw [Database.mark_step_completed]
      have := List.mem_map_of_mem
        (fun r : StepRow => if r.id = cur.id then
          { r with completed := true, actual_duration_seconds := none } else r)
        hcurmem
      simpa using this
    exact List.mem_append_left _ this
  · intro r hr hrid
    have : r ∈ Database.mark_step_completed steps cur.id none := by
      rw [Database.mark_step_completed]
      have := List.mem_map_of_mem
        (fun x : StepRow => if x.id = cur.id then
          { x with completed := true, actual_duration_seconds := none } else x)
        hr
      simpa [if_neg hrid] using this
    exact List.mem_append_left _ this

/-- Witness for C8: simplifying the single-step table `c8Steps` with a
payload of `"touch the pen"`/3s yields the table with the old row
completed (duration NULL) plus the replacement row at order 0, level 1.
-/
theorem C8_witness :
    simplify_endpoint c8Steps 7 2
        (.success (.object (some "touch the pen") (some 3) none)) =
      .ok [{ c8Row with completed := true, actual_duration_seconds := none },
           { id := 2, task_id := 7, step_text := "touch the pen"
           , estimated_seconds := some 3, actual_duration_seconds := none
           , step_order := 0, simplification_level := 1, completed := false }]
        { task_id := 7, step_id := 2, step_text := "touch the pen"
        , estimated_seconds := 3, simplification_level := 1
        , step_order := 0, is_complete := false } := by
  have h := C8_simplify_creates_and_completes c8Steps 7 2
      (.success (.object (some "touch the pen") (some 3) none)) c8Row
      { step := "touch the pen", estimated_seconds := 3, is_complete := false }
      (by rfl) (by rfl) (by decide)
  simpa [Database.mark_step_completed, c8Steps, c8Row] using h.1

/-- C9: every backend failure shape is surfaced by the client as
the single uniform `generationBackendError` carrying the stringified
cause, and each of the three orchestrator operations returns exactly
that error; on backend success each operation returns exactly the
validator's verdict for its mode — failures propagate unmodified, with
no retry and no fallback step. -/
theorem C9_uniform_failure_propagation (goal previous_step energy_level
    current_step : String) (simplification_level : Int)
    (outcome : BackendOutcome) :
    ((∀ payload, outcome ≠ .success payload) →
      ∃ cause,
        MicroWinService.generate_initial_step goal energy_level outcome =
          .error (.generationBackendError cause) ∧
        MicroWinService.generate_next_step goal previous_step energy_level
          outcome = .error (.generationBackendError cause) ∧
        MicroWinService.simplify_step current_step simplification_level
          outcome = .error (.generationBackendError cause)) ∧
    ∀ payload, outcome = .success payload →
      MicroWinService.generate_initial_step goal energy_level outcome =
        validate_step payload false ∧
      MicroWinService.generate_next_step goal previous_step energy_level
        outcome = validate_step payload false ∧
      MicroWinService.simplify_step current_step simplification_level
        outcome = validate_step payload true := by
  constructor
  · intro hfail
    refine ⟨"Ollama API error: " ++ outcome.describe, ?_⟩
    cases outcome with
    | success payload => exact absurd rfl (hfail payload)
    | transportError message =>
      exact ⟨rfl, rfl, rfl⟩
    | httpStatusError status =>
      exact ⟨rfl, rfl, rfl⟩
    | timeoutError =>
      exact ⟨rfl, rfl, rfl⟩
  · rintro payload rfl
    exact ⟨rfl, rfl, rfl⟩

/-- Witness for C9: a timeout surfaces from all three operations as the
same uniform backend error. -/
theorem C9_witness :
    ∃ cause,
      MicroWinService.generate_initial_step "Clean the kitchen" "low"
        .timeoutError = .error (.generationBackendError cause) ∧
      MicroWinService.generate_next_step "Clean the kitchen" "touch the pen"
        "low" .timeoutError = .error (.generationBackendError cause) ∧
      MicroWinService.simplify_step "touch the pen" 0 .timeoutError =
        .error (.generationBackendError cause) :=
  (C9_uniform_failure_propagation "Clean the kitchen" "touch the pen" "low"
      "touch the pen" 0 .timeoutError).1
    (fun _ h => BackendOutcome.noConfusion h)
